import Mathlib

/-!
Verification of `tcga_gdc_legacy_mafs.py` (mskcc/cmo-scripts).

The program lists GDC Legacy Archive projects, keeps the ones whose
identifier starts with "TCGA-", then, per project, queries the files
endpoint for open-access MAF files, prints one tab-delimited line per
matched file and optionally streams each file to disk.

The embedding below models JSON responses as an inductive `Json` type,
the remote archive as a `Server` record (one response per endpoint),
and filesystem writes as an explicit effect trace (`FsEff`).  Dynamic
dictionary access, which in Python raises `KeyError` / `TypeError` on a
malformed response, is modelled with `Except String`.
-/

/-- JSON-shaped data, as handled by `response.json()` in the script. -/
inductive Json where
  | str : String → Json
  | num : Int → Json
  | arr : List Json → Json
  | obj : List (String × Json) → Json

/-- `j[k]` on a parsed response: `KeyError` when the key is absent,
`TypeError` when `j` is not a dict. -/
def Json.get (j : Json) (k : String) : Except String Json :=
  match j with
  | Json.obj kvs =>
    match kvs.find? (fun kv => kv.1 == k) with
    | some kv => .ok kv.2
    | none => .error ("KeyError: " ++ k)
  | _ => .error ("TypeError: not a dict, key " ++ k)

/-- Iterating a response field that the script treats as a list. -/
def Json.asArr (j : Json) : Except String (List Json) :=
  match j with
  | Json.arr l => .ok l
  | _ => .error "TypeError: not a list"

/-- Using a response field where the script needs a string. -/
def Json.asStr (j : Json) : Except String String :=
  match j with
  | Json.str s => .ok s
  | _ => .error "TypeError: not a str"

/-- One observable filesystem write performed by the downloader:
`os.makedirs(dir)` or writing a whole file body to a path (the
`open(filepath, 'wb')` / chunked-write block, which replaces any
previous content of the path). -/
inductive FsEff where
  | makedirs : String → FsEff
  | writeFile : String → List Nat → FsEff
deriving DecidableEq, Repr

/-- The remote archive: the fixed response of the projects endpoint, the
files-endpoint response as a function of the posted JSON payload, and
the data-endpoint response body for a file id, as the stream of chunks
produced by `response.iter_content(chunk_size=1024)` (bytes as `Nat`). -/
structure Server where
  projResponse : Json
  fileResponse : Json → Json
  dataBody : String → List (List Nat)

/-- Observable outcome of one run of `main`: lines printed to standard
output and the trace of filesystem writes, in order. -/
structure RunResult where
  stdout : List String
  fs : List FsEff
deriving DecidableEq, Repr

/-- Form body of the projects request:
`requests.post(proj_ep, data={'size':'1000', 'fields':'project_id'})`. -/
def projQuery : List (String × String) :=
  [("size", "1000"), ("fields", "project_id")]

/-- One equality clause of the files filter:
`{'op':'=', 'content':{'field':field, 'value':value}}`. -/
def eqClause (field value : String) : Json :=
  Json.obj [("op", Json.str "="),
            ("content", Json.obj [("field", Json.str field),
                                  ("value", Json.str value)])]

/-- The JSON payload posted to the files endpoint for one project
(the `payload` dict literal of `main`). -/
def buildPayload (proj_id : String) : Json :=
  Json.obj [
    ("filters", Json.obj [
      ("op", Json.str "and"),
      ("content", Json.arr [
        eqClause "cases.project.project_id" proj_id,
        eqClause "files.data_format" "MAF",
        eqClause "access" "open"])]),
    ("format", Json.str "json"),
    ("fields", Json.str "file_id,file_name,file_size,md5sum"),
    ("size", Json.str "1000")]

/-- Python `s.startswith(p)`: exact, case-sensitive character prefix. -/
def startswith (s p : String) : Bool :=
  p.data.isPrefixOf s.data

/-- Splitting a character list at every occurrence of `c`
(the list-of-segments view that `os.path` operates on). -/
def splitChar (c : Char) : List Char → List (List Char)
  | [] => [[]]
  | x :: xs =>
    match splitChar c xs with
    | [] => if x = c then [[], []] else [[x]]
    | y :: ys => if x = c then [] :: y :: ys else (x :: y) :: ys

/-- `os.path.dirname`: the path up to (excluding) the last slash. -/
def dirname (filepath : String) : String :=
  String.intercalate "/"
    (((splitChar '/' filepath.data).map (fun l => String.mk l)).dropLast)

/-- The chunk loop of `download_file`: bytes written to the open file,
skipping empty keep-alive chunks (`if chunk: fh.write(chunk)`). -/
def streamChunks : List (List Nat) → List Nat
  | [] => []
  | c :: cs => if c = [] then streamChunks cs else c ++ streamChunks cs

/-- `download_file(file_id, filepath)`.  `fs0` is which directories
existed before the run; `dirs` those created earlier in this run.
Returns the effects it performs, the updated created-directory list,
and its return value (the destination path). -/
def download_file (srv : Server) (fs0 : String → Bool) (dirs : List String)
    (file_id filepath : String) : List FsEff × List String × String :=
  let directory := dirname filepath
  let body := streamChunks (srv.dataBody file_id)
  if fs0 directory || dirs.contains directory then
    ([FsEff.writeFile filepath body], dirs, filepath)
  else
    ([FsEff.makedirs directory, FsEff.writeFile filepath body],
     directory :: dirs, filepath)

/-- The printed line for one file record:
`'\t'.join([proj_id, maf['file_id'], maf['file_name']])`. -/
def extractLine (proj_id : String) (maf : Json) : Except String String := do
  let fid ← (← maf.get "file_id").asStr
  let fname ← (← maf.get "file_name").asStr
  .ok (String.intercalate "\t" [proj_id, fid, fname])

/-- The inner loop of `main` over `response.json()['data']['hits']`:
print one line per record and, when the download flag is set, download
the file to `'/'.join(['mafs', proj_id, maf['file_name']])`. -/
def processHits (download : Bool) (srv : Server) (fs0 : String → Bool)
    (proj_id : String) :
    List String → List Json → Except String (List String × List FsEff × List String)
  | dirs, [] => .ok ([], [], dirs)
  | dirs, maf :: rest => do
    let fid ← (← maf.get "file_id").asStr
    let fname ← (← maf.get "file_name").asStr
    let line := String.intercalate "\t" [proj_id, fid, fname]
    if download then
      let r := download_file srv fs0 dirs fid
                 (String.intercalate "/" ["mafs", proj_id, fname])
      let (ls, es, dirs2) ← processHits download srv fs0 proj_id r.2.1 rest
      .ok (line :: ls, r.1 ++ es, dirs2)
    else
      let (ls, es, dirs1) ← processHits download srv fs0 proj_id dirs rest
      .ok (line :: ls, es, dirs1)

/-- One iteration of the project loop: post `buildPayload proj_id` to
the files endpoint and process the returned hits. -/
def processProject (download : Bool) (srv : Server) (fs0 : String → Bool)
    (dirs : List String) (proj_id : String) :
    Except String (List String × List FsEff × List String) := do
  let resp := srv.fileResponse (buildPayload proj_id)
  let dataJ ← resp.get "data"
  let hitsJ ← dataJ.get "hits"
  let hits ← hitsJ.asArr
  processHits download srv fs0 proj_id dirs hits

/-- Line 16 of the script: extract `project_id` from every hit of the
projects response. -/
def projectIdsOf (srv : Server) : Except String (List String) := do
  let dataJ ← srv.projResponse.get "data"
  let hitsJ ← dataJ.get "hits"
  let hits ← hitsJ.asArr
  hits.mapM (fun d => do (← d.get "project_id").asStr)

/-- Line 17 of the script: keep only identifiers starting with "TCGA-". -/
def listProjects (srv : Server) : Except String (List String) :=
  (projectIdsOf srv).map (fun l => l.filter (fun d => startswith d "TCGA-"))

/-- `main`.  The source has an unconditional `exit(0)` at the end of the
body of the `for proj_id in proj_ids:` loop, so at most the first
retained project is ever processed; with no retained project the loop
body never runs and `main` falls through. -/
def run (download : Bool) (srv : Server) (fs0 : String → Bool) :
    Except String RunResult := do
  let proj_ids ← listProjects srv
  match proj_ids with
  | [] => .ok ⟨[], []⟩
  | p :: _ => do
    let (ls, es, _) ← processProject download srv fs0 [] p
    .ok ⟨ls, es⟩

/-! Concrete servers used to exercise the model on small inputs. -/

/-- A search response `{'data': {'hits': hits}}`. -/
def hitsResp (hits : List Json) : Json :=
  Json.obj [("data", Json.obj [("hits", Json.arr hits)])]

/-- A file record hit with the two fields the script reads. -/
def fileHit (fid fname : String) : Json :=
  Json.obj [("file_id", Json.str fid), ("file_name", Json.str fname)]

/-- A projects-endpoint hit `{'project_id': pid}`. -/
def projHit (pid : String) : Json :=
  Json.obj [("project_id", Json.str pid)]

/-- Reads the project identifier out of a files payload (first clause of
the filter), so a concrete server can answer per project. -/
def projOfPayload (pl : Json) : Except String String := do
  let f ← pl.get "filters"
  let c ← f.get "content"
  let l ← c.asArr
  match l with
  | c1 :: _ => do
    let cc ← c1.get "content"
    (← cc.get "value").asStr
  | [] => .error "no clause"

/-- Two retained TCGA projects, each with exactly one matching file. -/
def srvTwoProj : Server where
  projResponse := hitsResp [projHit "TCGA-ABC", projHit "TCGA-DEF"]
  fileResponse := fun pl =>
    match projOfPayload pl with
    | .ok "TCGA-ABC" => hitsResp [fileHit "f1" "a.maf"]
    | .ok "TCGA-DEF" => hitsResp [fileHit "f2" "b.maf"]
    | _ => hitsResp []
  dataBody := fun _ => []

/-- The project list of the spec scenario:
`["TCGA-ABC", "OTHER-XYZ", "TCGA-DEF"]`. -/
def srvMixedProj : Server where
  projResponse :=
    hitsResp [projHit "TCGA-ABC", projHit "OTHER-XYZ", projHit "TCGA-DEF"]
  fileResponse := fun _ => hitsResp []
  dataBody := fun _ => []

/-- One retained project whose file search returns zero hits. -/
def srvNoHits : Server where
  projResponse := hitsResp [projHit "TCGA-ABC"]
  fileResponse := fun _ => hitsResp []
  dataBody := fun _ => []

/-- A malformed projects response: the second hit has no
`project_id` field. -/
def srvBadProj : Server where
  projResponse := hitsResp [projHit "TCGA-X", Json.obj []]
  fileResponse := fun _ => hitsResp []
  dataBody := fun _ => []

/-- A well-formed projects response but a malformed file-search
response: the files endpoint answers without a `data` field. -/
def srvBadFile : Server where
  projResponse := hitsResp [projHit "TCGA-ABC"]
  fileResponse := fun _ => Json.obj []
  dataBody := fun _ => []

/-- A server whose data endpoint streams two non-empty chunks around an
empty keep-alive chunk. -/
def srvChunks : Server where
  projResponse := hitsResp [projHit "TCGA-ABC"]
  fileResponse := fun _ => hitsResp []
  dataBody := fun _ => [[1, 2], [], [3]]

/-! Shared lemmas about the `Except` embedding of dynamic access. -/

/-- `bind` on a successful step runs the continuation. -/
theorem exceptBindOk {α β : Type} (a : α) (f : α → Except String β) :
    (Except.ok a >>= f) = f a := rfl

/-- `bind` on a raised error keeps the error. -/
theorem exceptBindErr {α β : Type} (e : String) (f : α → Except String β) :
    ((Except.error e : Except String α) >>= f) = Except.error e := rfl

/-- The chunk loop writes the whole streamed body: concatenating the
non-empty chunks equals concatenating all chunks. -/
theorem streamChunks_eq_flatten (cs : List (List Nat)) :
    streamChunks cs = cs.flatten := by
  induction cs with
  | nil => rfl
  | cons c cs ih => by_cases hc : c = [] <;> simp [streamChunks, hc, ih]

/-- A successful `mapM` over `Except` yields one result per input. -/
theorem mapM_ok_length {α β : Type} (f : α → Except String β) :
    ∀ (l : List α) (bs : List β), l.mapM f = .ok bs → bs.length = l.length := by
  intro l
  induction l with
  | nil =>
    intro bs h
    simp only [List.mapM_nil] at h
    cases h
    rfl
  | cons a l ih =>
    intro bs h
    simp only [List.mapM_cons] at h
    cases hf : f a with
    | error e => rw [hf] at h; simp [exceptBindErr] at h
    | ok b =>
      rw [hf, exceptBindOk] at h
      cases hl : l.mapM f with
      | error e => rw [hl] at h; simp [exceptBindErr] at h
      | ok bs1 =>
        rw [hl, exceptBindOk] at h
        cases h
        simp [ih bs1 hl]

/-- The lines produced by the inner loop are exactly the per-record
lines, in response order. -/
theorem processHits_ok_lines (download : Bool) (srv : Server)
    (fs0 : String → Bool) (p : String) :
    ∀ (hits : List Json) (dirs ls : List String) (es : List FsEff)
      (d : List String),
      processHits download srv fs0 p dirs hits = .ok (ls, es, d) →
      hits.mapM (extractLine p) = .ok ls := by
  intro hits
  induction hits with
  | nil =>
    intro dirs ls es d h
    simp only [processHits] at h
    cases h
    rfl
  | cons maf rest ih =>
    intro dirs ls es d h
    simp only [processHits] at h
    simp only [List.mapM_cons]
    cases hfi : maf.get "file_id" with
    | error e => rw [hfi] at h; simp [exceptBindErr] at h
    | ok j1 =>
      rw [hfi, exceptBindOk] at h
      cases hs1 : j1.asStr with
      | error e => rw [hs1] at h; simp [exceptBindErr] at h
      | ok fid =>
        rw [hs1, exceptBindOk] at h
        cases hfn : maf.get "file_name" with
        | error e => rw [hfn] at h; simp [exceptBindErr] at h
        | ok j2 =>
          rw [hfn, exceptBindOk] at h
          cases hs2 : j2.asStr with
          | error e => rw [hs2] at h; simp [exceptBindErr] at h
          | ok fname =>
            rw [hs2, exceptBindOk] at h
            have hline : extractLine p maf =
                .ok (String.intercalate "\t" [p, fid, fname]) := by
              simp [extractLine, hfi, hs1, hfn, hs2, exceptBindOk]
            rw [hline, exceptBindOk]
            cases download with
            | false =>
              simp only [Bool.false_eq_true, if_false] at h
              cases hrec : processHits false srv fs0 p dirs rest with
              | error e => rw [hrec] at h; simp [exceptBindErr] at h
              | ok t =>
                obtain ⟨ls1, es1, d1⟩ := t
                rw [hrec, exceptBindOk] at h
                cases h
                rw [ih dirs ls1 es1 d1 hrec, exceptBindOk]
                rfl
            | true =>
              simp only [if_true] at h
              cases hrec : processHits true srv fs0 p
                  (download_file srv fs0 dirs fid
                    (String.intercalate "/" ["mafs", p, fname])).2.1 rest with
              | error e => rw [hrec] at h; simp [exceptBindErr] at h
              | ok t =>
                obtain ⟨ls1, es1, d1⟩ := t
                rw [hrec, exceptBindOk] at h
                cases h
                rw [ih _ ls1 es1 d1 hrec, exceptBindOk]
                rfl

/-- Without the download flag the inner loop performs no filesystem
effects and leaves the created-directory state unchanged. -/
theorem processHits_false_no_fs (srv : Server) (fs0 : String → Bool)
    (p : String) :
    ∀ (hits : List Json) (dirs ls : List String) (es : List FsEff)
      (d : List String),
      processHits false srv fs0 p dirs hits = .ok (ls, es, d) → es = [] := by
  intro hits
  induction hits with
  | nil =>
    intro dirs ls es d h
    simp only [processHits] at h
    cases h
    rfl
  | cons maf rest ih =>
    intro dirs ls es d h
    simp only [processHits, Bool.false_eq_true, if_false] at h
    cases hfi : maf.get "file_id" with
    | error e => rw [hfi] at h; simp [exceptBindErr] at h
    | ok j1 =>
      rw [hfi, exceptBindOk] at h
      cases hs1 : j1.asStr with
      | error e => rw [hs1] at h; simp [exceptBindErr] at h
      | ok fid =>
        rw [hs1, exceptBindOk] at h
        cases hfn : maf.get "file_name" with
        | error e => rw [hfn] at h; simp [exceptBindErr] at h
        | ok j2 =>
          rw [hfn, exceptBindOk] at h
          cases hs2 : j2.asStr with
          | error e => rw [hs2] at h; simp [exceptBindErr] at h
          | ok fname =>
            rw [hs2, exceptBindOk] at h
            cases hrec : processHits false srv fs0 p dirs rest with
            | error e => rw [hrec] at h; simp [exceptBindErr] at h
            | ok t =>
              obtain ⟨ls1, es1, d1⟩ := t
              rw [hrec, exceptBindOk] at h
              cases h
              exact ih dirs ls1 es1 d1 hrec

/-- Without the download flag one project iteration performs no
filesystem effects. -/
theorem processProject_false_no_fs (srv : Server) (fs0 : String → Bool)
    (dirs : List String) (p : String) (ls : List String) (es : List FsEff)
    (d : List String)
    (h : processProject false srv fs0 dirs p = .ok (ls, es, d)) : es = [] := by
  rw [processProject] at h
  cases h1 : (srv.fileResponse (buildPayload p)).get "data" with
  | error e => rw [h1] at h; simp [exceptBindErr] at h
  | ok dj =>
    rw [h1, exceptBindOk] at h
    cases h2 : dj.get "hits" with
    | error e => rw [h2] at h; simp [exceptBindErr] at h
    | ok hj =>
      rw [h2, exceptBindOk] at h
      cases h3 : hj.asArr with
      | error e => rw [h3] at h; simp [exceptBindErr] at h
      | ok hits =>
        rw [h3, exceptBindOk] at h
        exact processHits_false_no_fs srv fs0 p hits dirs ls es d h

/-- Claim C1: the project loop of `main` contains an unconditional
`exit(0)` at the end of its body, so on a server with two retained
TCGA projects, each having one matching file, the run prints only the
first project's line (one line instead of the intended two), with and
without the download flag. -/
theorem C1_early_exit_on_first_project :
    listProjects srvTwoProj = .ok ["TCGA-ABC", "TCGA-DEF"] ∧
    run false srvTwoProj (fun _ => false) =
      .ok ⟨["TCGA-ABC\tf1\ta.maf"], []⟩ ∧
    run true srvTwoProj (fun _ => false) =
      .ok ⟨["TCGA-ABC\tf1\ta.maf"],
           [FsEff.makedirs "mafs/TCGA-ABC",
            FsEff.writeFile "mafs/TCGA-ABC/a.maf" []]⟩ :=
  ⟨rfl, rfl, rfl⟩

/-- Claim C2: the identifiers handed to the file-enumeration loop are
exactly the returned identifiers with the literal prefix "TCGA-"
(exact, case-sensitive), kept in server order. -/
theorem C2_prefix_filter (srv : Server) (ids kept : List String)
    (h1 : projectIdsOf srv = .ok ids) (h2 : listProjects srv = .ok kept) :
    kept = ids.filter (fun d => startswith d "TCGA-") ∧
    kept.Sublist ids ∧
    ∀ x, x ∈ kept ↔ (x ∈ ids ∧ "TCGA-".data <+: x.data) := by
  have hk : kept = ids.filter (fun d => startswith d "TCGA-") := by
    rw [listProjects, h1] at h2
    simpa [Except.map] using h2.symm
  subst hk
  refine ⟨rfl, List.filter_sublist ids, fun x => ?_⟩
  simp [List.mem_filter, startswith, List.isPrefixOf_iff_prefix]

/-- Witness for C2 on the spec scenario
`["TCGA-ABC", "OTHER-XYZ", "TCGA-DEF"]`. -/
theorem C2_prefix_filter_witness :
    projectIdsOf srvMixedProj = .ok ["TCGA-ABC", "OTHER-XYZ", "TCGA-DEF"] ∧
    listProjects srvMixedProj = .ok ["TCGA-ABC", "TCGA-DEF"] ∧
    ["TCGA-ABC", "TCGA-DEF"] =
      (["TCGA-ABC", "OTHER-XYZ", "TCGA-DEF"] : List String).filter
        (fun d => startswith d "TCGA-") :=
  ⟨rfl, rfl, (C2_prefix_filter srvMixedProj _ _ rfl rfl).1⟩

/-- Claim C4: for every project identifier the files payload carries a
single `and` filter over exactly three equality clauses — project
identifier, data format "MAF", access "open" — and the shape does not
depend on the identifier. -/
theorem C4_payload_three_clauses (p : String) :
    ((buildPayload p).get "filters" >>= fun f => f.get "op") =
      .ok (Json.str "and") ∧
    ((buildPayload p).get "filters" >>= fun f =>
        f.get "content" >>= Json.asArr) =
      .ok [eqClause "cases.project.project_id" p,
           eqClause "files.data_format" "MAF",
           eqClause "access" "open"] :=
  ⟨rfl, rfl⟩

/-- Claim C8: an error raised in either stage — while handling the
projects response (a failed request or a missing `data` / `hits` /
`project_id` field) or while handling the file-search response of the
processed project (a missing `data` / `hits` field or a bad record) —
propagates uncaught through `run`, with no retry and no partial
result. -/
theorem C8_error_propagation (download : Bool) (srv : Server)
    (fs0 : String → Bool) (e : String)
    (h : listProjects srv = .error e ∨
      ∃ p rest, listProjects srv = .ok (p :: rest) ∧
        processProject download srv fs0 [] p = .error e) :
    run download srv fs0 = .error e := by
  cases h with
  | inl h => rw [run, h]; rfl
  | inr h =>
    obtain ⟨p, rest, hp, hpp⟩ := h
    rw [run, hp, exceptBindOk]
    show (processProject download srv fs0 [] p >>= fun t =>
        match t with
        | (ls, es, _) => Except.ok (⟨ls, es⟩ : RunResult)) = Except.error e
    rw [hpp]
    rfl

/-- Witness for C8 at both stages: a projects response whose second hit
has no `project_id` field aborts the whole run with the key error, and
a files response with no `data` field aborts the run after a
successful project-list stage. -/
theorem C8_error_propagation_witness :
    listProjects srvBadProj = .error "KeyError: project_id" ∧
    run false srvBadProj (fun _ => false) = .error "KeyError: project_id" ∧
    listProjects srvBadFile = .ok ["TCGA-ABC"] ∧
    processProject false srvBadFile (fun _ => false) [] "TCGA-ABC" =
      .error "KeyError: data" ∧
    run false srvBadFile (fun _ => false) = .error "KeyError: data" :=
  ⟨rfl,
   C8_error_propagation false srvBadProj (fun _ => false) _ (Or.inl rfl),
   rfl, rfl,
   C8_error_propagation false srvBadFile (fun _ => false) _
     (Or.inr ⟨"TCGA-ABC", [], rfl, rfl⟩)⟩

/-- Claim C9: both search requests cap the result count at the literal
1000: the projects form body and every files payload carry
`size = "1000"`. -/
theorem C9_size_caps :
    projQuery.find? (fun kv => kv.1 == "size") = some ("size", "1000") ∧
    ∀ p : String, (buildPayload p).get "size" = .ok (Json.str "1000") :=
  ⟨rfl, fun _ => rfl⟩

/-- Claim C3: every file record the program processes yields exactly one
printed line, `proj_id TAB file_id TAB file_name`, and the lines appear
in the order the server returned the records. -/
theorem C3_one_line_per_record (download : Bool) (srv : Server)
    (fs0 : String → Bool) (p : String) (dirs : List String)
    (hits : List Json) (ls : List String) (es : List FsEff)
    (d : List String)
    (h : processHits download srv fs0 p dirs hits = .ok (ls, es, d)) :
    hits.mapM (extractLine p) = .ok ls ∧ ls.length = hits.length := by
  have h1 := processHits_ok_lines download srv fs0 p hits dirs ls es d h
  exact ⟨h1, mapM_ok_length (extractLine p) hits ls h1⟩

/-- Witness for C3: two records of one response give two tab-joined
lines, in order. -/
theorem C3_one_line_per_record_witness :
    processHits false srvTwoProj (fun _ => false) "TCGA-ABC" []
        [fileHit "f1" "a.maf", fileHit "f2" "b.maf"] =
      .ok (["TCGA-ABC\tf1\ta.maf", "TCGA-ABC\tf2\tb.maf"], [], []) ∧
    [fileHit "f1" "a.maf", fileHit "f2" "b.maf"].mapM
        (extractLine "TCGA-ABC") =
      .ok ["TCGA-ABC\tf1\ta.maf", "TCGA-ABC\tf2\tb.maf"] ∧
    (["TCGA-ABC\tf1\ta.maf", "TCGA-ABC\tf2\tb.maf"] : List String).length =
      [fileHit "f1" "a.maf", fileHit "f2" "b.maf"].length :=
  ⟨rfl,
   (C3_one_line_per_record false srvTwoProj (fun _ => false) "TCGA-ABC" []
      [fileHit "f1" "a.maf", fileHit "f2" "b.maf"]
      ["TCGA-ABC\tf1\ta.maf", "TCGA-ABC\tf2\tb.maf"] [] [] rfl).1,
   (C3_one_line_per_record false srvTwoProj (fun _ => false) "TCGA-ABC" []
      [fileHit "f1" "a.maf", fileHit "f2" "b.maf"]
      ["TCGA-ABC\tf1\ta.maf", "TCGA-ABC\tf2\tb.maf"] [] [] rfl).2⟩

/-- Claim C5: a run without the download flag performs no filesystem
writes at all, however many files were matched and printed. -/
theorem C5_no_flag_no_writes (srv : Server) (fs0 : String → Bool)
    (r : RunResult) (h : run false srv fs0 = .ok r) : r.fs = [] := by
  rw [run] at h
  cases hp : listProjects srv with
  | error e => rw [hp] at h; simp [exceptBindErr] at h
  | ok pids =>
    rw [hp, exceptBindOk] at h
    cases pids with
    | nil => cases h; rfl
    | cons p rest =>
      have h1 : (processProject false srv fs0 [] p >>= fun t =>
          match t with
          | (ls, es, _) => Except.ok (⟨ls, es⟩ : RunResult)) = Except.ok r := h
      cases hpp : processProject false srv fs0 [] p with
      | error e => rw [hpp] at h1; simp [exceptBindErr] at h1
      | ok t =>
        obtain ⟨ls, es, d⟩ := t
        rw [hpp, exceptBindOk] at h1
        cases h1
        exact processProject_false_no_fs srv fs0 [] p ls es d hpp

/-- Witness for C5: a run that matches and prints one file without the
flag leaves the effect trace empty. -/
theorem C5_no_flag_no_writes_witness :
    run false srvTwoProj (fun _ => false) =
      .ok ⟨["TCGA-ABC\tf1\ta.maf"], []⟩ ∧
    (RunResult.mk ["TCGA-ABC\tf1\ta.maf"] []).fs = [] :=
  ⟨rfl, C5_no_flag_no_writes srvTwoProj (fun _ => false) _ rfl⟩

/-- Claim C6: with the download flag, for a matched file of project
"TCGA-ABC" named "x.maf" whose destination directory does not yet
exist, `download_file` first creates `mafs/TCGA-ABC` (via `os.makedirs`,
which also creates intermediate directories) and then writes the full
streamed body — all chunks, the empty keep-alive ones contributing
nothing — to `mafs/TCGA-ABC/x.maf`. -/
theorem C6_download_creates_and_writes (srv : Server) (fs0 : String → Bool)
    (fid : String) (h : fs0 "mafs/TCGA-ABC" = false) :
    download_file srv fs0 [] fid "mafs/TCGA-ABC/x.maf" =
      ([FsEff.makedirs "mafs/TCGA-ABC",
        FsEff.writeFile "mafs/TCGA-ABC/x.maf" ((srv.dataBody fid).flatten)],
       ["mafs/TCGA-ABC"], "mafs/TCGA-ABC/x.maf") := by
  have hd : dirname "mafs/TCGA-ABC/x.maf" = "mafs/TCGA-ABC" := rfl
  simp [download_file, hd, h, streamChunks_eq_flatten]

/-- Witness for C6: a body streamed as `[[1, 2], [], [3]]` is written
as `[1, 2, 3]` after the directory is created. -/
theorem C6_download_creates_and_writes_witness :
    ((fun (_ : String) => false) "mafs/TCGA-ABC" = false) ∧
    download_file srvChunks (fun _ => false) [] "F" "mafs/TCGA-ABC/x.maf" =
      ([FsEff.makedirs "mafs/TCGA-ABC",
        FsEff.writeFile "mafs/TCGA-ABC/x.maf" [1, 2, 3]],
       ["mafs/TCGA-ABC"], "mafs/TCGA-ABC/x.maf") :=
  ⟨rfl, C6_download_creates_and_writes srvChunks (fun _ => false) "F" rfl⟩

/-- Claim C7: a project whose file search returns zero hits contributes
zero output lines and zero filesystem effects, with or without the
download flag. -/
theorem C7_zero_hits (download : Bool) (srv : Server) (fs0 : String → Bool)
    (dirs : List String) (p : String)
    (h : ((srv.fileResponse (buildPayload p)).get "data" >>= fun dj =>
        dj.get "hits") = .ok (Json.arr [])) :
    processProject download srv fs0 dirs p = .ok ([], [], dirs) := by
  rw [processProject]
  cases h1 : (srv.fileResponse (buildPayload p)).get "data" with
  | error e => rw [h1] at h; simp [exceptBindErr] at h
  | ok dj =>
    rw [h1, exceptBindOk] at h
    rw [exceptBindOk, h, exceptBindOk]
    rfl

/-- Witness for C7: a concrete empty-hits response yields no lines and
no effects even with the download flag set. -/
theorem C7_zero_hits_witness :
    (((srvNoHits.fileResponse (buildPayload "TCGA-ABC")).get "data" >>=
        fun dj => dj.get "hits") = .ok (Json.arr [])) ∧
    processProject true srvNoHits (fun _ => false) [] "TCGA-ABC" =
      .ok ([], [], []) :=
  ⟨rfl, C7_zero_hits true srvNoHits (fun _ => false) [] "TCGA-ABC" rfl⟩

/-- Claim C10: `download_file` writes the destination wholesale — the
written content is determined by the streamed response body alone,
independent of any prior filesystem state (the `'wb'` open truncates
any existing file) — and it returns the destination path unchanged. -/
theorem C10_overwrite_and_return (srv : Server) (fs0 fs1 : String → Bool)
    (dirs dirs1 : List String) (fid fp : String) :
    (download_file srv fs0 dirs fid fp).2.2 = fp ∧
    (download_file srv fs0 dirs fid fp).1.getLast? =
      some (FsEff.writeFile fp (streamChunks (srv.dataBody fid))) ∧
    (download_file srv fs0 dirs fid fp).1.getLast? =
      (download_file srv fs1 dirs1 fid fp).1.getLast? := by
  refine ⟨?_, ?_, ?_⟩ <;> simp only [download_file] <;>
    first
      | (split <;> rfl)
      | (split <;> split <;> rfl)
